import Mathlib

/-!
# Verification of the taxonomy engine (`src/content/taxonomies.rs`)

Shallow embedding of the taxonomy engine of the site generator: the data
model (`TaxonomyKind`, `TaxonomyItem`, `Taxonomy`), the builder
(`Taxonomy::find_tags_and_categories`, `Taxonomy::new`) and the render
bridge (`render_single_item`, `render_list`).

The Rust builder accumulates pages into `HashMap<String, Vec<Page>>`
buckets via `entry(..).or_insert_with(|| vec![]).push(page)`.  We embed
the map as an association list in which `insertPush` appends the page to
the entry with the given key, or adds a fresh entry at the end.  The
association list realises one possible `HashMap` iteration order; where a
property must hold for every iteration order we quantify over
permutations of the bucket list.
-/

/-- Front matter of a page: the optional classification metadata the
taxonomy engine reads (`page.meta.category`, `page.meta.tags`). -/
structure FrontMatter where
  category : Option String
  tags : Option (List String)
  deriving DecidableEq, Repr

/-- A content page: opaque apart from its classification metadata.  The
`path` field stands for all the other content fields and gives pages an
identity. -/
structure Page where
  path : String
  meta : FrontMatter
  deriving DecidableEq, Repr

/-- `enum TaxonomyKind { Tags, Categories }`. -/
inductive TaxonomyKind where
  | Tags
  | Categories
  deriving DecidableEq, Repr

/-- Collapse consecutive hyphens to a single one (helper for `slugify`). -/
def squeezeDashes : List Char → List Char
  | [] => []
  | c :: cs =>
    match squeezeDashes cs with
    | [] => [c]
    | d :: ds => if c = '-' && d = '-' then d :: ds else c :: d :: ds

/-- Modelled from the spec: the external `slug::slugify` function used by
`TaxonomyItem::new` (its source is the third-party `slug` crate, not part
of this repository).  Per the spec: lowercase, whitespace/punctuation
normalized to hyphens, e.g. `"Web Dev" → "web-dev"`; runs of separators
collapse and no hyphen is left at either end. -/
def slugify (s : String) : String :=
  let mapped := s.data.map fun c => if c.isAlphanum then c.toLower else '-'
  let trimmed :=
    (((squeezeDashes mapped).dropWhile (· = '-')).reverse.dropWhile (· = '-')).reverse
  String.mk trimmed

/-- `struct TaxonomyItem { name, slug, pages }`. -/
structure TaxonomyItem where
  name : String
  slug : String
  pages : List Page
  deriving DecidableEq, Repr

/-- `TaxonomyItem::new(name, pages)`: stores the raw name and its slug. -/
def TaxonomyItem.new (name : String) (pages : List Page) : TaxonomyItem :=
  { name := name, slug := slugify name, pages := pages }

/-- `struct Taxonomy { kind, items }`; `items` is sorted by page count. -/
structure Taxonomy where
  kind : TaxonomyKind
  items : List TaxonomyItem
  deriving DecidableEq, Repr

/-- The bucket map `HashMap<String, Vec<Page>>`, embedded as an
association list (one entry per key). -/
abbrev Buckets := List (String × List Page)

/-- `map.entry(key).or_insert_with(|| vec![]).push(page)`: append `page`
to the entry keyed `key`, or add a fresh `(key, [page])` entry. -/
def insertPush (m : Buckets) (key : String) (page : Page) : Buckets :=
  match m with
  | [] => [(key, [page])]
  | (k, ps) :: rest =>
    if k = key then (k, ps ++ [page]) :: rest
    else (k, ps) :: insertPush rest key page

/-- Processing of one page inside the scan loop of
`find_tags_and_categories`: the accumulator is the pair
`(tags map, categories map)`. -/
def addPage (acc : Buckets × Buckets) (page : Page) : Buckets × Buckets :=
  let cats :=
    match page.meta.category with
    | some c => insertPush acc.2 c page
    | none => acc.2
  let tgs :=
    match page.meta.tags with
    | some ts => ts.foldl (fun m t => insertPush m t page) acc.1
    | none => acc.1
  (tgs, cats)

/-- The scan loop of `find_tags_and_categories`: one pass over all the
pages, producing the `(tags, categories)` bucket maps. -/
def collectBuckets (all_pages : List Page) : Buckets × Buckets :=
  all_pages.foldl addPage ([], [])

/-- `sorted_items.sort_by(|a, b| b.pages.len().cmp(&a.pages.len()))`:
stable sort, descending by page count. -/
def sortByCount (l : List TaxonomyItem) : List TaxonomyItem :=
  l.mergeSort fun a b => Nat.ble b.pages.length a.pages.length

/-- `Taxonomy::new(kind, items)`: one `TaxonomyItem` per bucket, then
sorted descending by page count. -/
def Taxonomy.new (kind : TaxonomyKind) (items : Buckets) : Taxonomy :=
  { kind := kind
    items := sortByCount (items.map fun kv => TaxonomyItem.new kv.1 kv.2) }

/-- `Taxonomy::find_tags_and_categories(all_pages)`. -/
def Taxonomy.find_tags_and_categories (all_pages : List Page) : Taxonomy × Taxonomy :=
  let buckets := collectBuckets all_pages
  (Taxonomy.new TaxonomyKind.Tags buckets.1,
   Taxonomy.new TaxonomyKind.Categories buckets.2)

/-- `Taxonomy::len`. -/
def Taxonomy.len (t : Taxonomy) : Nat :=
  t.items.length

/-- `Taxonomy::get_single_item_name`. -/
def Taxonomy.get_single_item_name (t : Taxonomy) : String :=
  match t.kind with
  | TaxonomyKind.Tags => "tag"
  | TaxonomyKind.Categories => "category"

/-- `Taxonomy::get_list_name`. -/
def Taxonomy.get_list_name (t : Taxonomy) : String :=
  match t.kind with
  | TaxonomyKind.Tags => "tags"
  | TaxonomyKind.Categories => "categories"

/-- Modelled from the spec: the site `Config` collaborator (its source
lives in the external `config` crate).  The engine only consumes
`make_permalink(path) -> string`, opaque absolute-URL construction. -/
structure Config where
  make_permalink : String → String

/-- A value stored in a Tera rendering context under a string key. -/
inductive TValue where
  | str (s : String)
  | item (i : TaxonomyItem)
  | items (l : List TaxonomyItem)
  | conf (c : Config)

/-- A Tera `Context`: key/value insertions, in insertion order. -/
abbrev Context := List (String × TValue)

/-- Modelled from the spec: the external Tera templating engine, consumed
only through `render(template_name, context) -> Result<String>`. -/
structure Tera where
  render : String → Context → Except String String

/-- An `error_chain` error as produced by `chain_err`: the new message
wrapping the underlying cause. -/
inductive BuildError where
  | chained (msg : String) (cause : String)
  deriving DecidableEq, Repr

/-- The context built by `render_single_item`: `config`, the item under
its singular name, `current_url` and `current_path`. -/
def Taxonomy.single_item_context (t : Taxonomy) (item : TaxonomyItem)
    (config : Config) : Context :=
  let name := t.get_single_item_name
  [("config", TValue.conf config),
   (name, TValue.item item),
   ("current_url",
     TValue.str (config.make_permalink (name ++ "/" ++ item.slug))),
   ("current_path", TValue.str ("/" ++ name ++ "/" ++ item.slug))]

/-- `Taxonomy::render_single_item`: renders `"<singular-name>.html"` on
the single-item context, wrapping any engine failure with
`"Failed to render <singular-name> page."`. -/
def Taxonomy.render_single_item (t : Taxonomy) (item : TaxonomyItem)
    (tera : Tera) (config : Config) : Except BuildError String :=
  let name := t.get_single_item_name
  (tera.render (name ++ ".html") (t.single_item_context item config)).mapError
    (BuildError.chained ("Failed to render " ++ name ++ " page."))

/-- The context built by `render_list`: `config`, the items under the
plural name, `current_url` and `current_path`. -/
def Taxonomy.list_context (t : Taxonomy) (config : Config) : Context :=
  let name := t.get_list_name
  [("config", TValue.conf config),
   (name, TValue.items t.items),
   ("current_url", TValue.str (config.make_permalink name)),
   ("current_path", TValue.str name)]

/-- `Taxonomy::render_list`: renders `"<plural-name>.html"` on the list
context, wrapping any engine failure with
`"Failed to render <plural-name> page."`. -/
def Taxonomy.render_list (t : Taxonomy) (tera : Tera) (config : Config) :
    Except BuildError String :=
  let name := t.get_list_name
  (tera.render (name ++ ".html") (t.list_context config)).mapError
    (BuildError.chained ("Failed to render " ++ name ++ " page."))

/-! ## Observation helpers for the bucket maps -/

/-- The keys of a bucket map, in order. -/
def bucketKeys (m : Buckets) : List String :=
  m.map Prod.fst

/-- The pages stored under key `n` (the empty list when `n` is absent). -/
def bucketVal (m : Buckets) (n : String) : List Page :=
  match m with
  | [] => []
  | (k, ps) :: rest => if k = n then ps else bucketVal rest n

/-- The copies of page `q` that the scan pushes into the tag bucket `n`:
one per occurrence of `n` in `q`'s tag list. -/
def tagOcc (n : String) (q : Page) : List Page :=
  match q.meta.tags with
  | some ts => (ts.filter fun t => t = n).map fun _ => q
  | none => []

/-! ## Concrete fixtures used to instantiate the theorems -/

/-- A page tagged `["Go", "GO"]`, no category. -/
def pageGo : Page :=
  { path := "go.md", meta := { category := none, tags := some ["Go", "GO"] } }

/-- A page with the duplicated tag list `["a", "a"]`, no category. -/
def pageDup : Page :=
  { path := "dup.md", meta := { category := none, tags := some ["a", "a"] } }

/-- A page with category `"News"` and tags `["a", "b"]`. -/
def pageNews1 : Page :=
  { path := "n1.md", meta := { category := some "News", tags := some ["a", "b"] } }

/-- A page with category `"News"` and tag `["a"]`. -/
def pageNews2 : Page :=
  { path := "n2.md", meta := { category := some "News", tags := some ["a"] } }

/-- A fixed taxonomy item used to exercise the render bridge. -/
def itemRust : TaxonomyItem :=
  { name := "Rust", slug := "rust", pages := [] }

/-- A config whose permalink builder is the identity on the path, so the
path handed to it is observable. -/
def idConfig : Config :=
  { make_permalink := fun p => p }

/-- A rendering engine that always fails with `"boom"`. -/
def failTera : Tera :=
  { render := fun _ _ => Except.error "boom" }

/-! ## Lemmas about `insertPush` -/

theorem bucketVal_insertPush (m : Buckets) (k : String) (p : Page) (n : String) :
    bucketVal (insertPush m k p) n =
      if n = k then bucketVal m n ++ [p] else bucketVal m n := by
  induction m with
  | nil =>
    by_cases h : n = k
    · subst h; simp [insertPush, bucketVal]
    · have h2 : ¬ (k = n) := fun hh => h hh.symm
      simp [insertPush, bucketVal, h, h2]
  | cons kv rest ih =>
    obtain ⟨a, ps⟩ := kv
    by_cases ha : a = k
    · subst ha
      by_cases hn : a = n
      · subst hn; simp [insertPush, bucketVal]
      · have hn2 : ¬ (n = a) := fun hh => hn hh.symm
        simp [insertPush, bucketVal, hn, hn2]
    · by_cases hn : a = n
      · subst hn
        have hk2 : ¬ (a = k) := ha
        simp [insertPush, bucketVal, ha, hk2]
      · simp [insertPush, bucketVal, ha, hn, ih]

theorem bucketKeys_insertPush (m : Buckets) (k : String) (p : Page) :
    bucketKeys (insertPush m k p) =
      if k ∈ bucketKeys m then bucketKeys m else bucketKeys m ++ [k] := by
  induction m with
  | nil => simp [insertPush, bucketKeys]
  | cons kv rest ih =>
    obtain ⟨a, ps⟩ := kv
    by_cases ha : a = k
    · subst ha
      simp [insertPush, bucketKeys]
    · have ha2 : ¬ (k = a) := fun hh => ha hh.symm
      rw [show insertPush ((a, ps) :: rest) k p = (a, ps) :: insertPush rest k p from by
            simp [insertPush, ha]]
      rw [show bucketKeys ((a, ps) :: insertPush rest k p)
            = a :: bucketKeys (insertPush rest k p) from rfl]
      rw [show bucketKeys ((a, ps) :: rest) = a :: bucketKeys rest from rfl]
      simp only [List.mem_cons, ha2, false_or, ih]
      by_cases hmem : k ∈ bucketKeys rest
      · simp [hmem]
      · simp [hmem]

theorem nodup_bucketKeys_insertPush (m : Buckets) (k : String) (p : Page)
    (h : (bucketKeys m).Nodup) : (bucketKeys (insertPush m k p)).Nodup := by
  rw [bucketKeys_insertPush]
  by_cases hmem : k ∈ bucketKeys m
  · simpa [hmem] using h
  · rw [if_neg hmem]
    exact List.nodup_append.mpr ⟨h, List.nodup_singleton k, by simpa using hmem⟩

theorem nonempty_insertPush (m : Buckets) (k : String) (p : Page)
    (h : ∀ kv ∈ m, kv.2 ≠ []) : ∀ kv ∈ insertPush m k p, kv.2 ≠ [] := by
  induction m with
  | nil => simp [insertPush]
  | cons kv₀ rest ih =>
    obtain ⟨a, ps⟩ := kv₀
    by_cases ha : a = k
    · intro kv hkv
      rw [show insertPush ((a, ps) :: rest) k p = (a, ps ++ [p]) :: rest from by
            simp [insertPush, ha]] at hkv
      rcases List.mem_cons.mp hkv with he | hr
      · subst he; simp
      · exact h kv (List.mem_cons_of_mem _ hr)
    · intro kv hkv
      rw [show insertPush ((a, ps) :: rest) k p = (a, ps) :: insertPush rest k p from by
            simp [insertPush, ha]] at hkv
      rcases List.mem_cons.mp hkv with he | hr
      · subst he; exact h _ (List.mem_cons_self _ _)
      · exact ih (fun kv₁ hkv₁ => h kv₁ (List.mem_cons_of_mem _ hkv₁)) kv hr

/-- With distinct keys, each entry's stored list is what `bucketVal`
reads back at its key. -/
theorem bucketVal_of_mem (m : Buckets) (kv : String × List Page)
    (hnd : (bucketKeys m).Nodup) (hm : kv ∈ m) : bucketVal m kv.1 = kv.2 := by
  induction m with
  | nil => cases hm
  | cons kv₀ rest ih =>
    obtain ⟨a, ps⟩ := kv₀
    have hnd2 : a ∉ bucketKeys rest ∧ (bucketKeys rest).Nodup := by
      have : (a :: bucketKeys rest).Nodup := hnd
      exact List.nodup_cons.mp this
    rcases List.mem_cons.mp hm with he | hr
    · subst he; simp [bucketVal]
    · have hmem : kv.1 ∈ bucketKeys rest := List.mem_map_of_mem Prod.fst hr
      have hne : ¬ (a = kv.1) := fun hh => hnd2.1 (by rw [hh]; exact hmem)
      simp [bucketVal, hne, ih hnd2.2 hr]

/-- When no value list is empty, a key is present exactly when its value
is non-empty. -/
theorem mem_bucketKeys_iff_val_ne_nil (m : Buckets) (n : String)
    (h : ∀ kv ∈ m, kv.2 ≠ []) : n ∈ bucketKeys m ↔ bucketVal m n ≠ [] := by
  induction m with
  | nil => simp [bucketKeys, bucketVal]
  | cons kv rest ih =>
    obtain ⟨a, ps⟩ := kv
    have hrest := ih fun kv₁ hkv₁ => h kv₁ (List.mem_cons_of_mem _ hkv₁)
    by_cases ha : a = n
    · subst ha
      have hps : ps ≠ [] := h (a, ps) (List.mem_cons_self _ _)
      simp [bucketKeys, bucketVal, hps]
    · have ha2 : ¬ (n = a) := fun hh => ha hh.symm
      show n ∈ a :: bucketKeys rest ↔ bucketVal ((a, ps) :: rest) n ≠ []
      rw [List.mem_cons]
      simp only [bucketVal, if_neg ha]
      constructor
      · rintro (h1 | h1)
        · exact absurd h1 ha2
        · exact hrest.mp h1
      · intro h1
        exact Or.inr (hrest.mpr h1)

/-! ## Characterization of the scan (`collectBuckets`) -/

theorem bucketVal_tagsFold (ts : List String) (p : Page) (n : String) :
    ∀ m : Buckets,
      bucketVal (ts.foldl (fun m t => insertPush m t p) m) n =
        bucketVal m n ++ ((ts.filter fun t => t = n).map fun _ => p) := by
  induction ts with
  | nil => intro m; simp
  | cons t rest ih =>
    intro m
    rw [List.foldl_cons, ih]
    by_cases ht : t = n
    · subst ht
      simp [bucketVal_insertPush]
    · have ht2 : ¬ (n = t) := fun hh => ht hh.symm
      simp [bucketVal_insertPush, ht, ht2]

theorem bucketVal_foldl_cats (pages : List Page) (n : String) :
    ∀ acc : Buckets × Buckets,
      bucketVal (pages.foldl addPage acc).2 n =
        bucketVal acc.2 n ++ (pages.filter fun q => q.meta.category = some n) := by
  induction pages with
  | nil => intro acc; simp
  | cons p rest ih =>
    intro acc
    rw [List.foldl_cons, ih]
    rcases hcat : p.meta.category with _ | c
    · simp [addPage, hcat]
    · by_cases hc : c = n
      · subst hc
        simp [addPage, hcat, bucketVal_insertPush]
      · have hc2 : ¬ (n = c) := fun hh => hc hh.symm
        simp [addPage, hcat, bucketVal_insertPush, hc, hc2]

theorem bucketVal_foldl_tags (pages : List Page) (n : String) :
    ∀ acc : Buckets × Buckets,
      bucketVal (pages.foldl addPage acc).1 n =
        bucketVal acc.1 n ++ pages.flatMap (tagOcc n) := by
  induction pages with
  | nil => intro acc; simp
  | cons p rest ih =>
    intro acc
    rw [List.foldl_cons, ih]
    rcases htags : p.meta.tags with _ | ts
    · simp [addPage, htags, tagOcc]
    · simp [addPage, htags, tagOcc, bucketVal_tagsFold]

/-- The categories bucket at key `n` holds exactly the pages whose
category is `n`, in scan order. -/
theorem cats_bucketVal (pages : List Page) (n : String) :
    bucketVal (collectBuckets pages).2 n =
      pages.filter fun q => q.meta.category = some n := by
  rw [collectBuckets, bucketVal_foldl_cats]
  simp [bucketVal]

/-- The tags bucket at key `n` holds, for each page in scan order, one
copy of the page per occurrence of `n` in its tag list. -/
theorem tags_bucketVal (pages : List Page) (n : String) :
    bucketVal (collectBuckets pages).1 n = pages.flatMap (tagOcc n) := by
  rw [collectBuckets, bucketVal_foldl_tags]
  simp [bucketVal]

theorem nonempty_tagsFold (ts : List String) (p : Page) :
    ∀ m : Buckets, (∀ kv ∈ m, kv.2 ≠ []) →
      ∀ kv ∈ ts.foldl (fun m t => insertPush m t p) m, kv.2 ≠ [] := by
  induction ts with
  | nil => intro m hm; simpa using hm
  | cons t rest ih =>
    intro m hm
    rw [List.foldl_cons]
    exact ih _ (nonempty_insertPush _ _ _ hm)

theorem nonempty_foldl (pages : List Page) :
    ∀ acc : Buckets × Buckets,
      (∀ kv ∈ acc.1, kv.2 ≠ []) → (∀ kv ∈ acc.2, kv.2 ≠ []) →
      (∀ kv ∈ (pages.foldl addPage acc).1, kv.2 ≠ []) ∧
      (∀ kv ∈ (pages.foldl addPage acc).2, kv.2 ≠ []) := by
  induction pages with
  | nil => intro acc h1 h2; exact ⟨h1, h2⟩
  | cons p rest ih =>
    intro acc h1 h2
    rw [List.foldl_cons]
    apply ih
    · rcases htags : p.meta.tags with _ | ts
      · have e : (addPage acc p).1 = acc.1 := by simp [addPage, htags]
        rw [e]; exact h1
      · have e : (addPage acc p).1 = ts.foldl (fun m t => insertPush m t p) acc.1 := by
          simp [addPage, htags]
        rw [e]; exact nonempty_tagsFold ts p acc.1 h1
    · rcases hcat : p.meta.category with _ | c
      · have e : (addPage acc p).2 = acc.2 := by simp [addPage, hcat]
        rw [e]; exact h2
      · have e : (addPage acc p).2 = insertPush acc.2 c p := by simp [addPage, hcat]
        rw [e]; exact nonempty_insertPush _ _ _ h2

/-- Every bucket the scan produces is non-empty. -/
theorem nonempty_collectBuckets (pages : List Page) :
    (∀ kv ∈ (collectBuckets pages).1, kv.2 ≠ []) ∧
    (∀ kv ∈ (collectBuckets pages).2, kv.2 ≠ []) := by
  rw [collectBuckets]
  exact nonempty_foldl pages ([], []) (by simp) (by simp)

theorem nodup_tagsFold (ts : List String) (p : Page) :
    ∀ m : Buckets, (bucketKeys m).Nodup →
      (bucketKeys (ts.foldl (fun m t => insertPush m t p) m)).Nodup := by
  induction ts with
  | nil => intro m hm; simpa using hm
  | cons t rest ih =>
    intro m hm
    rw [List.foldl_cons]
    exact ih _ (nodup_bucketKeys_insertPush _ _ _ hm)

theorem nodup_foldl (pages : List Page) :
    ∀ acc : Buckets × Buckets,
      (bucketKeys acc.1).Nodup → (bucketKeys acc.2).Nodup →
      (bucketKeys (pages.foldl addPage acc).1).Nodup ∧
      (bucketKeys (pages.foldl addPage acc).2).Nodup := by
  induction pages with
  | nil => intro acc h1 h2; exact ⟨h1, h2⟩
  | cons p rest ih =>
    intro acc h1 h2
    rw [List.foldl_cons]
    apply ih
    · rcases htags : p.meta.tags with _ | ts
      · have e : (addPage acc p).1 = acc.1 := by simp [addPage, htags]
        rw [e]; exact h1
      · have e : (addPage acc p).1 = ts.foldl (fun m t => insertPush m t p) acc.1 := by
          simp [addPage, htags]
        rw [e]; exact nodup_tagsFold ts p acc.1 h1
    · rcases hcat : p.meta.category with _ | c
      · have e : (addPage acc p).2 = acc.2 := by simp [addPage, hcat]
        rw [e]; exact h2
      · have e : (addPage acc p).2 = insertPush acc.2 c p := by simp [addPage, hcat]
        rw [e]; exact nodup_bucketKeys_insertPush _ _ _ h2

/-- The scan never produces two buckets with the same key. -/
theorem nodup_collectBuckets (pages : List Page) :
    (bucketKeys (collectBuckets pages).1).Nodup ∧
    (bucketKeys (collectBuckets pages).2).Nodup := by
  rw [collectBuckets]
  exact nodup_foldl pages ([], []) (by simp [bucketKeys]) (by simp [bucketKeys])

theorem mem_tagOcc (n : String) (r q : Page) :
    q ∈ tagOcc n r ↔ q = r ∧ n ∈ r.meta.tags.getD [] := by
  rcases h : r.meta.tags with _ | ts
  · simp [tagOcc, h]
  · simp only [tagOcc, h, Option.getD_some, List.mem_map, List.mem_filter]
    constructor
    · rintro ⟨t, ⟨ht, he⟩, hq⟩
      refine ⟨hq.symm, ?_⟩
      have : t = n := by simpa using he
      rw [← this]; exact ht
    · rintro ⟨hq, hn⟩
      exact ⟨n, ⟨hn, by simp⟩, hq.symm⟩

/-- Membership in a categories bucket. -/
theorem mem_cats_bucketVal (pages : List Page) (n : String) (q : Page) :
    q ∈ bucketVal (collectBuckets pages).2 n ↔
      q ∈ pages ∧ q.meta.category = some n := by
  rw [cats_bucketVal]
  simp [List.mem_filter]

/-- Membership in a tags bucket. -/
theorem mem_tags_bucketVal (pages : List Page) (n : String) (q : Page) :
    q ∈ bucketVal (collectBuckets pages).1 n ↔
      q ∈ pages ∧ n ∈ q.meta.tags.getD [] := by
  rw [tags_bucketVal]
  simp only [List.mem_flatMap, mem_tagOcc]
  constructor
  · rintro ⟨r, hr, rfl, hn⟩
    exact ⟨hr, hn⟩
  · rintro ⟨hq, hn⟩
    exact ⟨q, hq, rfl, hn⟩

/-! ## Lemmas about `Taxonomy.new` and the produced item lists -/

theorem sortByCount_perm (l : List TaxonomyItem) : (sortByCount l).Perm l :=
  List.mergeSort_perm l _

theorem items_new_perm (kind : TaxonomyKind) (b : Buckets) :
    (Taxonomy.new kind b).items.Perm (b.map fun kv => TaxonomyItem.new kv.1 kv.2) :=
  sortByCount_perm _

theorem sortByCount_sorted (l : List TaxonomyItem) :
    (sortByCount l).Pairwise fun a b => b.pages.length ≤ a.pages.length := by
  have h :=
    @List.sorted_mergeSort TaxonomyItem
      (fun a b => Nat.ble b.pages.length a.pages.length)
      (fun a b c hab hbc => by
        simp only [Nat.ble_eq] at hab hbc ⊢
        exact Nat.le_trans hbc hab)
      (fun a b => by
        simp only [Bool.or_eq_true, Nat.ble_eq]
        exact Nat.le_total b.pages.length a.pages.length)
      l
  exact h.imp fun hab => by simpa using hab

theorem kind_new (kind : TaxonomyKind) (b : Buckets) :
    (Taxonomy.new kind b).kind = kind :=
  rfl

/-- The stable sort leaves an already-sorted list unchanged (used to
evaluate `sortByCount` on concrete inputs). -/
theorem sortByCount_of_sorted (l : List TaxonomyItem)
    (h : l.Pairwise fun a b => Nat.ble b.pages.length a.pages.length = true) :
    sortByCount l = l :=
  List.mergeSort_of_sorted h

/-- Transfer: an item of a built taxonomy is `TaxonomyItem.new` of one of
the buckets, and conversely. -/
theorem mem_items_new (kind : TaxonomyKind) (b : Buckets) (it : TaxonomyItem) :
    it ∈ (Taxonomy.new kind b).items ↔
      ∃ kv ∈ b, it = TaxonomyItem.new kv.1 kv.2 := by
  rw [(items_new_perm kind b).mem_iff]
  constructor
  · intro h
    rcases List.mem_map.mp h with ⟨kv, hkv, he⟩
    exact ⟨kv, hkv, he.symm⟩
  · rintro ⟨kv, hkv, rfl⟩
    exact List.mem_map.mpr ⟨kv, hkv, rfl⟩

/-- Counting items over a built taxonomy equals counting buckets. -/
theorem countP_items_new (kind : TaxonomyKind) (b : Buckets) (f : TaxonomyItem → Bool) :
    (Taxonomy.new kind b).items.countP f
      = b.countP fun kv => f (TaxonomyItem.new kv.1 kv.2) := by
  rw [List.Perm.countP_eq f (items_new_perm kind b), List.countP_map]
  rfl

theorem countP_eq_one_of_nodup_mem {l : List String} {c : String}
    (hnd : l.Nodup) (hc : c ∈ l) : (l.countP fun s => decide (s = c)) = 1 := by
  induction l with
  | nil => cases hc
  | cons a rest ih =>
    rw [List.countP_cons]
    rcases List.mem_cons.mp hc with rfl | hr
    · have h0 : (rest.countP fun s => decide (s = c)) = 0 := by
        rw [List.countP_eq_zero]
        intro s hs
        simp only [decide_eq_true_eq]
        exact fun hh => (List.nodup_cons.mp hnd).1 (hh ▸ hs)
      simp [h0]
    · have ha : ¬ (a = c) := fun hh =>
        (List.nodup_cons.mp hnd).1 (hh ▸ hr)
      rw [ih (List.nodup_cons.mp hnd).2 hr]
      simp [ha]

theorem countP_mem_eq_dedup_length {keys ts : List String}
    (hnd : keys.Nodup) (hsub : ∀ t ∈ ts, t ∈ keys) :
    (keys.countP fun s => decide (s ∈ ts)) = ts.dedup.length := by
  rw [List.countP_eq_length_filter]
  have h1 : (keys.filter fun s => decide (s ∈ ts)).Nodup := hnd.filter _
  have hset : (keys.filter fun s => decide (s ∈ ts)).toFinset = ts.toFinset := by
    ext x
    simp only [List.mem_toFinset, List.mem_filter, decide_eq_true_eq]
    exact ⟨fun h => h.2, fun h => ⟨hsub x h, h⟩⟩
  calc (keys.filter fun s => decide (s ∈ ts)).length
      = (keys.filter fun s => decide (s ∈ ts)).toFinset.card :=
        (List.toFinset_card_of_nodup h1).symm
    _ = ts.toFinset.card := by rw [hset]
    _ = ts.dedup.length := List.card_toFinset ts

/-- For an entry of the categories map, a page sits in its list exactly
when it declares that category. -/
theorem mem_pages_iff_cats (all_pages : List Page) (p : Page) (hp : p ∈ all_pages)
    (kv : String × List Page) (hkv : kv ∈ (collectBuckets all_pages).2) :
    p ∈ kv.2 ↔ p.meta.category = some kv.1 := by
  rw [← bucketVal_of_mem _ kv (nodup_collectBuckets all_pages).2 hkv,
      mem_cats_bucketVal]
  simp [hp]

/-- For an entry of the tags map, a page sits in its list exactly when
the key occurs among its tags. -/
theorem mem_pages_iff_tags (all_pages : List Page) (p : Page) (hp : p ∈ all_pages)
    (kv : String × List Page) (hkv : kv ∈ (collectBuckets all_pages).1) :
    p ∈ kv.2 ↔ kv.1 ∈ p.meta.tags.getD [] := by
  rw [← bucketVal_of_mem _ kv (nodup_collectBuckets all_pages).1 hkv,
      mem_tags_bucketVal]
  simp [hp]

/-! ## Claim theorems -/

/-- C1: for every input page sequence, the items sequence of each
Taxonomy returned by `find_tags_and_categories` is sorted non-increasing
by page count: every adjacent pair of items satisfies
`items[i].pages.length ≥ items[i+1].pages.length`. -/
theorem items_sorted_by_page_count (all_pages : List Page) :
    List.Chain' (fun a b => b.pages.length ≤ a.pages.length)
        (Taxonomy.find_tags_and_categories all_pages).1.items
    ∧ List.Chain' (fun a b => b.pages.length ≤ a.pages.length)
        (Taxonomy.find_tags_and_categories all_pages).2.items :=
  ⟨(sortByCount_sorted _).chain', (sortByCount_sorted _).chain'⟩

/-- C10: for every input page sequence, the first component of the pair
returned by `find_tags_and_categories` has kind `Tags` and the second
has kind `Categories`. -/
theorem find_tags_and_categories_kinds (all_pages : List Page) :
    (Taxonomy.find_tags_and_categories all_pages).1.kind = TaxonomyKind.Tags
    ∧ (Taxonomy.find_tags_and_categories all_pages).2.kind = TaxonomyKind.Categories :=
  ⟨rfl, rfl⟩

/-- C8: on the empty page sequence, `find_tags_and_categories` returns
the `Tags` taxonomy and the `Categories` taxonomy, both with an empty
items sequence (and, being a total function, it cannot fail). -/
theorem find_tags_and_categories_nil :
    Taxonomy.find_tags_and_categories [] =
      ({ kind := TaxonomyKind.Tags, items := [] },
       { kind := TaxonomyKind.Categories, items := [] }) := by
  simp [Taxonomy.find_tags_and_categories, collectBuckets, Taxonomy.new, sortByCount]

/-- C7: grouping is by exact, case-sensitive, untrimmed string equality:
the page tagged `["Go", "GO"]` yields two distinct Tags items named
`"Go"` and `"GO"`, each with slug `"go"` and each holding that page; the
slug collision is not resolved. -/
theorem grouping_case_sensitive :
    ((Taxonomy.find_tags_and_categories [pageGo]).1.items.map
        fun i => (i.name, i.slug, i.pages)).Perm
      [("Go", "go", [pageGo]), ("GO", "go", [pageGo])] := by
  have e0 : ((collectBuckets [pageGo]).1.map fun kv => TaxonomyItem.new kv.1 kv.2)
      = [TaxonomyItem.new "Go" [pageGo], TaxonomyItem.new "GO" [pageGo]] := by
    decide
  have e : (Taxonomy.find_tags_and_categories [pageGo]).1.items
      = [TaxonomyItem.new "Go" [pageGo], TaxonomyItem.new "GO" [pageGo]] := by
    show sortByCount ((collectBuckets [pageGo]).1.map fun kv => TaxonomyItem.new kv.1 kv.2) = _
    rw [e0]
    exact sortByCount_of_sorted _ (by decide)
  rw [e]
  decide

/-- C6: every TaxonomyItem in either taxonomy returned by
`find_tags_and_categories` has a non-empty pages list: an item exists
only if at least one page referenced its name. -/
theorem items_pages_nonempty (all_pages : List Page) :
    (∀ it ∈ (Taxonomy.find_tags_and_categories all_pages).1.items, it.pages ≠ [])
    ∧ (∀ it ∈ (Taxonomy.find_tags_and_categories all_pages).2.items, it.pages ≠ []) := by
  constructor
  · intro it hit
    rcases (mem_items_new TaxonomyKind.Tags (collectBuckets all_pages).1 it).mp hit
      with ⟨kv, hkv, rfl⟩
    exact (nonempty_collectBuckets all_pages).1 kv hkv
  · intro it hit
    rcases (mem_items_new TaxonomyKind.Categories (collectBuckets all_pages).2 it).mp hit
      with ⟨kv, hkv, rfl⟩
    exact (nonempty_collectBuckets all_pages).2 kv hkv

/-- Witness for C6: the `"News"` item built from `pageNews1` has a
non-empty page list. -/
theorem items_pages_nonempty_witness :
    (TaxonomyItem.new "News" [pageNews1]).pages ≠ [] := by
  apply (items_pages_nonempty [pageNews1]).2 (TaxonomyItem.new "News" [pageNews1])
  have e0 : ((collectBuckets [pageNews1]).2.map fun kv => TaxonomyItem.new kv.1 kv.2)
      = [TaxonomyItem.new "News" [pageNews1]] := by decide
  show TaxonomyItem.new "News" [pageNews1]
      ∈ sortByCount ((collectBuckets [pageNews1]).2.map fun kv => TaxonomyItem.new kv.1 kv.2)
  rw [e0, sortByCount_of_sorted _ (by decide)]
  exact List.mem_singleton.mpr rfl

/-- Counterexample to C3 as stated: for a Tags taxonomy and an item with
slug `"rust"`, the claim requires the root-relative path
`"/tags/rust"` (the plural list name) in the context, but the context
built by `render_single_item` contains `"/tag/rust"` (the singular
name), and with the identity permalink builder `current_url` is
`"tag/rust"`, not `"tags/rust"`. -/
theorem render_single_item_uses_singular_name :
    ("current_path", TValue.str "/tags/rust")
        ∉ Taxonomy.single_item_context
            { kind := TaxonomyKind.Tags, items := [] } itemRust idConfig
    ∧ ("current_path", TValue.str "/tag/rust")
        ∈ Taxonomy.single_item_context
            { kind := TaxonomyKind.Tags, items := [] } itemRust idConfig
    ∧ ("current_url", TValue.str (idConfig.make_permalink "tags/rust"))
        ∉ Taxonomy.single_item_context
            { kind := TaxonomyKind.Tags, items := [] } itemRust idConfig
    ∧ ("current_url", TValue.str (idConfig.make_permalink "tag/rust"))
        ∈ Taxonomy.single_item_context
            { kind := TaxonomyKind.Tags, items := [] } itemRust idConfig := by
  refine ⟨?_, ?_, ?_, ?_⟩ <;>
    simp [Taxonomy.single_item_context, Taxonomy.get_single_item_name, itemRust, idConfig]

/-- C3 (amended): `render_single_item` builds the item's canonical URL
by calling the config's permalink builder on the path
`"<singular-name>/<slug>"` and adds the root-relative path
`"/<singular-name>/<slug>"` to the rendering context it hands to the
engine. -/
theorem render_single_item_url_and_path (t : Taxonomy) (item : TaxonomyItem)
    (config : Config) :
    ("current_url",
        TValue.str (config.make_permalink (t.get_single_item_name ++ "/" ++ item.slug)))
      ∈ t.single_item_context item config
    ∧ ("current_path",
        TValue.str ("/" ++ t.get_single_item_name ++ "/" ++ item.slug))
      ∈ t.single_item_context item config
    ∧ ∀ tera : Tera,
        t.render_single_item item tera config
          = (tera.render (t.get_single_item_name ++ ".html")
              (t.single_item_context item config)).mapError
              (BuildError.chained
                ("Failed to render " ++ t.get_single_item_name ++ " page.")) := by
  refine ⟨?_, ?_, fun _ => rfl⟩ <;> simp [Taxonomy.single_item_context]

/-- C4: `render_single_item` invokes the engine with template name
exactly `"tag.html"` on a Tags taxonomy and `"category.html"` on a
Categories taxonomy, and `render_list` with `"tags.html"` or
`"categories.html"` respectively. -/
theorem render_template_names (items : List TaxonomyItem) (item : TaxonomyItem)
    (tera : Tera) (config : Config) :
    (Taxonomy.render_single_item { kind := TaxonomyKind.Tags, items := items }
        item tera config
      = (tera.render "tag.html"
          (Taxonomy.single_item_context { kind := TaxonomyKind.Tags, items := items }
            item config)).mapError
          (BuildError.chained "Failed to render tag page."))
    ∧ (Taxonomy.render_single_item { kind := TaxonomyKind.Categories, items := items }
        item tera config
      = (tera.render "category.html"
          (Taxonomy.single_item_context
            { kind := TaxonomyKind.Categories, items := items } item config)).mapError
          (BuildError.chained "Failed to render category page."))
    ∧ (Taxonomy.render_list { kind := TaxonomyKind.Tags, items := items } tera config
      = (tera.render "tags.html"
          (Taxonomy.list_context { kind := TaxonomyKind.Tags, items := items }
            config)).mapError
          (BuildError.chained "Failed to render tags page."))
    ∧ (Taxonomy.render_list { kind := TaxonomyKind.Categories, items := items }
        tera config
      = (tera.render "categories.html"
          (Taxonomy.list_context { kind := TaxonomyKind.Categories, items := items }
            config)).mapError
          (BuildError.chained "Failed to render categories page.")) :=
  ⟨rfl, rfl, rfl, rfl⟩

/-- C5: when the engine fails, `render_single_item` returns an error
wrapping the engine's failure with message
`"Failed to render tag page."` / `"Failed to render category page."`,
and `render_list` with the plural `"Failed to render tags page."` /
`"Failed to render categories page."`; the engine error is propagated
wrapped, never swallowed. -/
theorem render_errors_wrapped (items : List TaxonomyItem) (item : TaxonomyItem)
    (tera : Tera) (config : Config) (e : String) :
    (tera.render "tag.html"
        (Taxonomy.single_item_context { kind := TaxonomyKind.Tags, items := items }
          item config) = Except.error e →
      Taxonomy.render_single_item { kind := TaxonomyKind.Tags, items := items }
          item tera config
        = Except.error (BuildError.chained "Failed to render tag page." e))
    ∧ (tera.render "category.html"
        (Taxonomy.single_item_context
          { kind := TaxonomyKind.Categories, items := items } item config)
          = Except.error e →
      Taxonomy.render_single_item { kind := TaxonomyKind.Categories, items := items }
          item tera config
        = Except.error (BuildError.chained "Failed to render category page." e))
    ∧ (tera.render "tags.html"
        (Taxonomy.list_context { kind := TaxonomyKind.Tags, items := items } config)
          = Except.error e →
      Taxonomy.render_list { kind := TaxonomyKind.Tags, items := items } tera config
        = Except.error (BuildError.chained "Failed to render tags page." e))
    ∧ (tera.render "categories.html"
        (Taxonomy.list_context { kind := TaxonomyKind.Categories, items := items }
          config) = Except.error e →
      Taxonomy.render_list { kind := TaxonomyKind.Categories, items := items }
          tera config
        = Except.error (BuildError.chained "Failed to render categories page." e)) := by
  exact
    ⟨fun h =>
      (congrArg (Except.mapError
        (BuildError.chained "Failed to render tag page.")) h).trans rfl,
     fun h =>
      (congrArg (Except.mapError
        (BuildError.chained "Failed to render category page.")) h).trans rfl,
     fun h =>
      (congrArg (Except.mapError
        (BuildError.chained "Failed to render tags page.")) h).trans rfl,
     fun h =>
      (congrArg (Except.mapError
        (BuildError.chained "Failed to render categories page.")) h).trans rfl⟩

/-- Witness for C5: with an engine that always fails with `"boom"`, all
four render calls return the wrapped error. -/
theorem render_errors_wrapped_witness :
    Taxonomy.render_single_item { kind := TaxonomyKind.Tags, items := [] }
        itemRust failTera idConfig
      = Except.error (BuildError.chained "Failed to render tag page." "boom")
    ∧ Taxonomy.render_single_item { kind := TaxonomyKind.Categories, items := [] }
        itemRust failTera idConfig
      = Except.error (BuildError.chained "Failed to render category page." "boom")
    ∧ Taxonomy.render_list { kind := TaxonomyKind.Tags, items := [] }
        failTera idConfig
      = Except.error (BuildError.chained "Failed to render tags page." "boom")
    ∧ Taxonomy.render_list { kind := TaxonomyKind.Categories, items := [] }
        failTera idConfig
      = Except.error (BuildError.chained "Failed to render categories page." "boom") := by
  have h := render_errors_wrapped [] itemRust failTera idConfig "boom"
  exact ⟨h.1 rfl, h.2.1 rfl, h.2.2.1 rfl, h.2.2.2 rfl⟩

/-- Counterexample to C2 as stated: the page `pageDup` declares K = 2
tags (`["a", "a"]`), but it appears in exactly one Tags item, not in
two distinct items — duplicate occurrences of the same tag string land
in the same bucket. -/
theorem page_tag_count_counterexample :
    pageDup.meta.tags = some ["a", "a"]
    ∧ ((Taxonomy.find_tags_and_categories [pageDup]).1.items.countP
        fun it => decide (pageDup ∈ it.pages)) = 1
    ∧ ((Taxonomy.find_tags_and_categories [pageDup]).1.items.countP
        fun it => decide (pageDup ∈ it.pages))
      ≠ (pageDup.meta.tags.getD []).length := by
  have e0 : ((collectBuckets [pageDup]).1.map fun kv => TaxonomyItem.new kv.1 kv.2)
      = [TaxonomyItem.new "a" [pageDup, pageDup]] := by decide
  have e : (Taxonomy.find_tags_and_categories [pageDup]).1.items
      = [TaxonomyItem.new "a" [pageDup, pageDup]] := by
    show sortByCount ((collectBuckets [pageDup]).1.map fun kv => TaxonomyItem.new kv.1 kv.2) = _
    rw [e0]
    exact sortByCount_of_sorted _ (by decide)
  rw [e]
  exact ⟨rfl, by decide, by decide⟩

/-- C2 (amended): for every page `p` of the input, `p` appears in
exactly one Categories item when it declares a category and in none
otherwise, and in exactly one Tags item per *distinct* tag string it
declares (a page listing the same tag twice is recorded twice inside
that single item); moreover any item whose list holds `p` is named by
`p`'s category, resp. one of `p`'s tags — so a page with neither
category nor tags appears in neither taxonomy. -/
theorem page_multi_membership (all_pages : List Page) (p : Page)
    (hp : p ∈ all_pages) :
    ((Taxonomy.find_tags_and_categories all_pages).2.items.countP
        fun it => decide (p ∈ it.pages))
      = (if p.meta.category.isSome then 1 else 0)
    ∧ ((Taxonomy.find_tags_and_categories all_pages).1.items.countP
        fun it => decide (p ∈ it.pages))
      = (p.meta.tags.getD []).dedup.length
    ∧ (∀ it ∈ (Taxonomy.find_tags_and_categories all_pages).2.items,
        p ∈ it.pages → p.meta.category = some it.name)
    ∧ (∀ it ∈ (Taxonomy.find_tags_and_categories all_pages).1.items,
        p ∈ it.pages → it.name ∈ p.meta.tags.getD []) := by
  have hndc := (nodup_collectBuckets all_pages).2
  have hndt := (nodup_collectBuckets all_pages).1
  have hnec := (nonempty_collectBuckets all_pages).2
  have hnet := (nonempty_collectBuckets all_pages).1
  refine ⟨?_, ?_, ?_, ?_⟩
  · show (Taxonomy.new TaxonomyKind.Categories (collectBuckets all_pages).2).items.countP
        (fun it => decide (p ∈ it.pages)) = if p.meta.category.isSome then 1 else 0
    rw [countP_items_new]
    rcases hcat : p.meta.category with _ | c
    · simp only [Option.isSome_none, Bool.false_eq_true, if_false]
      rw [List.countP_eq_zero]
      intro kv hkv
      simp only [decide_eq_true_eq]
      intro hmem
      have hc := (mem_pages_iff_cats all_pages p hp kv hkv).mp hmem
      rw [hcat] at hc
      cases hc
    · simp only [Option.isSome_some, if_true]
      have hcongr : ∀ kv ∈ (collectBuckets all_pages).2,
          decide (p ∈ (TaxonomyItem.new kv.1 kv.2).pages) ↔ decide (kv.1 = c) := by
        intro kv hkv
        simp only [decide_eq_true_eq]
        have hiff := mem_pages_iff_cats all_pages p hp kv hkv
        constructor
        · intro hmem
          have h2 := hiff.mp hmem
          rw [hcat] at h2
          exact (Option.some.inj h2).symm
        · intro he
          apply hiff.mpr
          rw [hcat, he]
      rw [List.countP_congr hcongr]
      have hkc : c ∈ bucketKeys (collectBuckets all_pages).2 := by
        rw [mem_bucketKeys_iff_val_ne_nil _ _ hnec]
        intro hnil
        have hmem : p ∈ bucketVal (collectBuckets all_pages).2 c :=
          (mem_cats_bucketVal all_pages c p).mpr ⟨hp, hcat⟩
        rw [hnil] at hmem
        cases hmem
      have hkeys : ((bucketKeys (collectBuckets all_pages).2).countP
            fun s => decide (s = c))
          = ((collectBuckets all_pages).2.countP fun kv => decide (kv.1 = c)) := by
        rw [show bucketKeys (collectBuckets all_pages).2
              = (collectBuckets all_pages).2.map Prod.fst from rfl, List.countP_map]
        rfl
      rw [← hkeys]
      exact countP_eq_one_of_nodup_mem hndc hkc
  · show (Taxonomy.new TaxonomyKind.Tags (collectBuckets all_pages).1).items.countP
        (fun it => decide (p ∈ it.pages)) = (p.meta.tags.getD []).dedup.length
    rw [countP_items_new]
    have hcongr : ∀ kv ∈ (collectBuckets all_pages).1,
        decide (p ∈ (TaxonomyItem.new kv.1 kv.2).pages)
          ↔ decide (kv.1 ∈ p.meta.tags.getD []) := by
      intro kv hkv
      simp only [decide_eq_true_eq]
      exact mem_pages_iff_tags all_pages p hp kv hkv
    rw [List.countP_congr hcongr]
    have hsub : ∀ t ∈ p.meta.tags.getD [],
        t ∈ bucketKeys (collectBuckets all_pages).1 := by
      intro t ht
      rw [mem_bucketKeys_iff_val_ne_nil _ _ hnet]
      intro hnil
      have hmem : p ∈ bucketVal (collectBuckets all_pages).1 t :=
        (mem_tags_bucketVal all_pages t p).mpr ⟨hp, ht⟩
      rw [hnil] at hmem
      cases hmem
    have hkeys : ((bucketKeys (collectBuckets all_pages).1).countP
          fun s => decide (s ∈ p.meta.tags.getD []))
        = ((collectBuckets all_pages).1.countP
            fun kv => decide (kv.1 ∈ p.meta.tags.getD [])) := by
      rw [show bucketKeys (collectBuckets all_pages).1
            = (collectBuckets all_pages).1.map Prod.fst from rfl, List.countP_map]
      rfl
    rw [← hkeys]
    exact countP_mem_eq_dedup_length hndt hsub
  · intro it hit hmem
    rcases (mem_items_new TaxonomyKind.Categories (collectBuckets all_pages).2 it).mp hit
      with ⟨kv, hkv, rfl⟩
    exact (mem_pages_iff_cats all_pages p hp kv hkv).mp hmem
  · intro it hit hmem
    rcases (mem_items_new TaxonomyKind.Tags (collectBuckets all_pages).1 it).mp hit
      with ⟨kv, hkv, rfl⟩
    exact (mem_pages_iff_tags all_pages p hp kv hkv).mp hmem

/-- Witness for C2 (amended): `pageNews1` (category `"News"`, tags
`["a", "b"]`) appears in exactly one Categories item and exactly two
Tags items. -/
theorem page_multi_membership_witness :
    ((Taxonomy.find_tags_and_categories [pageNews1]).2.items.countP
        fun it => decide (pageNews1 ∈ it.pages)) = 1
    ∧ ((Taxonomy.find_tags_and_categories [pageNews1]).1.items.countP
        fun it => decide (pageNews1 ∈ it.pages)) = 2 := by
  have h := page_multi_membership [pageNews1] pageNews1 (by decide)
  refine ⟨?_, ?_⟩
  · rw [h.1]; decide
  · rw [h.2.1]; decide

/-- C9: re-scanning the same page sequence yields, for each kind, item
sets equal up to the ordering of items with equal page counts: whatever
iteration order the bucket map presents (any permutation of the
buckets), the resulting items are a permutation of — so have the same
multiset of (name, slug, pages) triples as — the canonical run's
items. -/
theorem rebuild_same_item_sets (pages : List Page) (l₁ l₂ : Buckets)
    (h₁ : l₁.Perm (collectBuckets pages).1) (h₂ : l₂.Perm (collectBuckets pages).2) :
    (Taxonomy.new TaxonomyKind.Tags l₁).items.Perm
        (Taxonomy.find_tags_and_categories pages).1.items
    ∧ (Taxonomy.new TaxonomyKind.Categories l₂).items.Perm
        (Taxonomy.find_tags_and_categories pages).2.items :=
  ⟨(items_new_perm _ _).trans ((h₁.map _).trans (items_new_perm _ _).symm),
   (items_new_perm _ _).trans ((h₂.map _).trans (items_new_perm _ _).symm)⟩

/-- Witness for C9: scanning `[pageNews1, pageNews2]` and rebuilding
from the reversed bucket lists yields the same item sets. -/
theorem rebuild_same_item_sets_witness :
    (Taxonomy.new TaxonomyKind.Tags
        [("b", [pageNews1]), ("a", [pageNews1, pageNews2])]).items.Perm
      (Taxonomy.find_tags_and_categories [pageNews1, pageNews2]).1.items
    ∧ (Taxonomy.new TaxonomyKind.Categories
        [("News", [pageNews1, pageNews2])]).items.Perm
      (Taxonomy.find_tags_and_categories [pageNews1, pageNews2]).2.items :=
  rebuild_same_item_sets [pageNews1, pageNews2]
    [("b", [pageNews1]), ("a", [pageNews1, pageNews2])]
    [("News", [pageNews1, pageNews2])] (by decide) (by decide)
